import Mathlib

set_option autoImplicit false

/-
Shallow embedding of the openflite repository (Rust) for specification checking.

Modelling conventions:
* Rust `f64` values are modelled by `FVal`: an exact rational for every finite
  float, plus `nan`, `inf`, `ninf`.  All concrete inputs used in theorems and
  counterexamples are exactly representable in binary64, and every arithmetic
  step performed on them by the code (subtractions by 0, comparisons) is exact,
  so the rational model agrees with the IEEE behaviour at those points.
* Rust `HashMap` is modelled by an association list whose keys are kept
  distinct by the insert operation (`AList.insert` replaces or appends);
  `len()` is the list length and iteration-order-dependent behaviour is noted
  where it occurs.
* Fallible operations return `Option`; a Rust panic (out-of-bounds slice) is
  modelled as `none`.
-/

namespace OpenFlite

/-- Model of a Rust `f64` value: exact rational for finite floats, plus the
special values. -/
inductive FVal where
  | nan : FVal
  | inf : FVal
  | ninf : FVal
  | num : ℚ → FVal
deriving DecidableEq

/-- IEEE comparison `a < b` (false whenever either side is NaN). -/
def FVal.blt : FVal → FVal → Bool
  | FVal.nan, _ => false
  | _, FVal.nan => false
  | FVal.num a, FVal.num b => decide (a < b)
  | FVal.ninf, FVal.ninf => false
  | FVal.ninf, _ => true
  | FVal.inf, _ => false
  | _, FVal.inf => true
  | _, _ => false

/-- IEEE comparison `a <= b` (false whenever either side is NaN). -/
def FVal.ble : FVal → FVal → Bool
  | FVal.nan, _ => false
  | _, FVal.nan => false
  | FVal.num a, FVal.num b => decide (a ≤ b)
  | FVal.ninf, _ => true
  | _, FVal.inf => true
  | _, _ => false

/-- IEEE subtraction on the model (exact on rationals; the concrete inputs the
theorems use are points where binary64 subtraction is exact). -/
def FVal.sub : FVal → FVal → FVal
  | FVal.nan, _ => FVal.nan
  | _, FVal.nan => FVal.nan
  | FVal.inf, FVal.inf => FVal.nan
  | FVal.inf, _ => FVal.inf
  | FVal.ninf, FVal.ninf => FVal.nan
  | FVal.ninf, _ => FVal.ninf
  | FVal.num _, FVal.inf => FVal.ninf
  | FVal.num _, FVal.ninf => FVal.inf
  | FVal.num a, FVal.num b => FVal.num (a - b)

/-- IEEE absolute value on the model. -/
def FVal.abs : FVal → FVal
  | FVal.nan => FVal.nan
  | FVal.inf => FVal.inf
  | FVal.ninf => FVal.inf
  | FVal.num a => FVal.num |a|

/-- Rust `f64::EPSILON` = 2^(-52), exactly representable. -/
def f64Epsilon : ℚ := 1 / 2 ^ 52

/-- Numeric value of an ASCII digit character. -/
def digitVal (c : Char) : Nat := c.toNat - 48

/-- Value of a digit string read in base 10. -/
def natOfDigits (l : List Char) : Nat := l.foldl (fun n c => n * 10 + digitVal c) 0

/-- Unsigned decimal literal: digits, optionally a point and more digits
(`"12"`, `"12."`, `"12.5"`, `".5"`). -/
def parseDecCore (l : List Char) : Option ℚ :=
  let ip := l.takeWhile Char.isDigit
  let rest := l.dropWhile Char.isDigit
  match rest with
  | [] => if ip.isEmpty then none else some (natOfDigits ip : ℚ)
  | c :: fp =>
    if c = '.' && fp.all Char.isDigit && !(ip.isEmpty && fp.isEmpty) then
      some ((natOfDigits ip : ℚ) + (natOfDigits fp : ℚ) / (10 : ℚ) ^ fp.length)
    else none

/-- Model of Rust `str::parse::<f64>()` on plain decimal literals (optional
sign, digits, optional fraction).  Exponent, `inf` and `nan` spellings are not
used by the configuration values this development examines, and the decimal
literals appearing in concrete theorems are exactly representable, so the
parsed rational equals the parsed double. -/
def parseF64 (s : String) : Option FVal :=
  match s.data with
  | '+' :: rest => (parseDecCore rest).map FVal.num
  | '-' :: rest => (parseDecCore rest).map (fun q => FVal.num (-q))
  | l => (parseDecCore l).map FVal.num

/-- Model of Rust `str::parse::<u8>()`: optional `+`, digits, value at most
255. -/
def parseU8 (s : String) : Option Nat :=
  let core := fun (l : List Char) =>
    if !l.isEmpty && l.all Char.isDigit then
      let n := natOfDigits l
      if n ≤ 255 then some n else none
    else none
  match s.data with
  | '+' :: rest => core rest
  | l => core l

/-- Mirror of `config.rs` `Comparison`. -/
structure Comparison where
  active : Bool
  value : String
  operand : String
  if_value : String
  else_value : String
deriving DecidableEq

/-- Mirror of `config.rs` `Source`. -/
structure Source where
  source_type : String
  name : String
deriving DecidableEq

/-- Mirror of `config.rs` `Display`. -/
structure Display where
  display_type : String
  serial : String
  trigger : String
  pin : String
deriving DecidableEq

/-- Mirror of `config.rs` `ConfigSettings`. -/
structure ConfigSettings where
  source : Option Source
  comparison : Option Comparison
  display : Option Display
deriving DecidableEq

/-- Mirror of `config.rs` `OutputConfig`. -/
structure OutputConfig where
  guid : String
  active : Bool
  description : String
  settings : ConfigSettings
deriving DecidableEq

/-- The `condition_met` computation inside `MappingEngine::apply_comparison`
(`mapping.rs` lines 121-129), factored out with the operand string and the
parsed threshold as arguments. -/
def conditionMet (val : FVal) (operand : String) (target : FVal) : Bool :=
  match operand with
  | ">" => FVal.blt target val
  | "<" => FVal.blt val target
  | "==" => FVal.blt ((val.sub target).abs) (FVal.num f64Epsilon)
  | "=" => FVal.blt ((val.sub target).abs) (FVal.num f64Epsilon)
  | ">=" => FVal.ble target val
  | "<=" => FVal.ble val target
  | "!=" => FVal.blt (FVal.num f64Epsilon) ((val.sub target).abs)
  | _ => false

/-- Mirror of `MappingEngine::apply_comparison` (`mapping.rs` lines 119-136):
parse failures default the threshold to 0, the if-value to 1 and the
else-value to 0. -/
def applyComparison (val : FVal) (comp : Comparison) : FVal :=
  let target := (parseF64 comp.value).getD (FVal.num 0)
  if conditionMet val comp.operand target then
    (parseF64 comp.if_value).getD (FVal.num 1)
  else
    (parseF64 comp.else_value).getD (FVal.num 0)

/-- The comparison step as claim C1 words it: all three numeric literals
(threshold, if-value, else-value) default to 0 on parse failure.  Kept for
comparison against `applyComparison`, which is translated from the source. -/
def applyComparisonClaimC1 (val : FVal) (comp : Comparison) : FVal :=
  let target := (parseF64 comp.value).getD (FVal.num 0)
  if conditionMet val comp.operand target then
    (parseF64 comp.if_value).getD (FVal.num 0)
  else
    (parseF64 comp.else_value).getD (FVal.num 0)

/-- Rust saturating cast `f64 as u8`: NaN goes to 0, the value is truncated
toward zero and clamped to `[0, 255]`. -/
def f64AsU8 : FVal → Nat
  | FVal.nan => 0
  | FVal.inf => 255
  | FVal.ninf => 0
  | FVal.num q => if q ≤ 0 then 0 else if 255 ≤ q then 255 else (⌊q⌋).toNat

/-- Nearest integer, ties to even (the rounding used by Rust float
formatting). -/
def roundHalfEven (q : ℚ) : Int :=
  let n := ⌊q⌋
  let r := q - n
  if r < 1 / 2 then n else if 1 / 2 < r then n + 1 else if Even n then n else n + 1

/-- Model of Rust `format!` of a float with zero decimals.  The minus-zero
display corner is not modelled; no theorem inspects this text. -/
def formatF0 : FVal → String
  | FVal.nan => "NaN"
  | FVal.inf => "inf"
  | FVal.ninf => "-inf"
  | FVal.num q => toString (roundHalfEven q)

/-- Simulator variable snapshot: a `HashMap` modelled as an association list
with distinct keys. -/
def Snapshot : Type := List (String × FVal)

instance : DecidableEq Snapshot := fun a b => List.hasDecEq a b

/-- Mirror of `mapping.rs` `HardwareAction`. -/
inductive HardwareAction where
  | setPin (serial : String) (pin : Nat) (value : Nat)
  | set7Segment (serial : String) (module : Nat) (index : Nat) (value : String)
  | setLCD (serial : String) (display_id : Nat) (line : Nat) (text : String)
deriving DecidableEq

/-- Mirror of `mapping.rs` `SimAction`. -/
inductive SimAction where
  | command (name : String)
  | writeDataref (name : String) (value : FVal)
  | none
deriving DecidableEq

/-- Lookup in the snapshot (`data.get(&source.name)`). -/
def snapLookup (data : Snapshot) (k : String) : Option FVal :=
  List.lookup k data

/-- Body of the `process_outputs` loop (`mapping.rs` lines 17-60) for one
output rule: the list of actions this rule contributes (empty or a
singleton). -/
def outputActions (data : Snapshot) (config : OutputConfig) : List HardwareAction :=
  if !config.active then []
  else
    match config.settings.source, config.settings.display with
    | some source, some display =>
      match snapLookup data source.name with
      | some val =>
        let final_val :=
          match config.settings.comparison with
          | some comp => if comp.active then applyComparison val comp else val
          | Option.none => val
        if display.display_type = "Pin" then
          [HardwareAction.setPin display.serial ((parseU8 display.pin).getD 0)
            (f64AsU8 final_val)]
        else if display.display_type = "7Segment" then
          [HardwareAction.set7Segment display.serial 0 0 (formatF0 final_val)]
        else if display.display_type = "LCD" then
          [HardwareAction.setLCD display.serial 0 0
            (config.description ++ ": " ++ formatF0 final_val)]
        else []
      | Option.none => []
    | _, _ => []

/-- Mirror of `config.rs` `Action`. -/
structure Action where
  action_type : String
  command : Option String
  dataref : Option String
  value : Option String
deriving DecidableEq

/-- Mirror of `config.rs` `ButtonAction`. -/
structure ButtonAction where
  on_press : Option Action
  on_release : Option Action
deriving DecidableEq

/-- Mirror of `config.rs` `EncoderAction`. -/
structure EncoderAction where
  on_left : Option Action
  on_right : Option Action
deriving DecidableEq

/-- Mirror of `config.rs` `InputSettings`. -/
structure InputSettings where
  button : Option ButtonAction
  encoder : Option EncoderAction
deriving DecidableEq

/-- Mirror of `config.rs` `InputConfig`. -/
structure InputConfig where
  guid : String
  active : Bool
  description : String
  settings : InputSettings
deriving DecidableEq

/-- Mirror of `config.rs` `Outputs`. -/
structure Outputs where
  config : List OutputConfig
deriving DecidableEq

/-- Mirror of `config.rs` `Inputs`. -/
structure Inputs where
  config : List InputConfig
deriving DecidableEq

/-- Mirror of `config.rs` `MobiFlightProject`. -/
structure MobiFlightProject where
  outputs : Outputs
  inputs : Inputs
deriving DecidableEq

/-- Mirror of `MappingEngine::process_outputs` (`mapping.rs` lines 14-63):
one pass over the output rules, each contributing its actions in order. -/
def processOutputs (proj : MobiFlightProject) (data : Snapshot) : List HardwareAction :=
  proj.outputs.config.flatMap (outputActions data)

/-- Mirror of `MappingEngine::create_sim_action` (`mapping.rs` lines
104-117). -/
def createSimAction (action : Action) : SimAction :=
  match action.command with
  | some cmd => SimAction.command cmd
  | Option.none =>
    match action.dataref with
    | some dref =>
      SimAction.writeDataref dref ((action.value.bind parseF64).getD (FVal.num 0))
    | Option.none => SimAction.none

/-- Mirror of `protocol.rs` `Response`. -/
inductive Response where
  | info (name : String) (board_type : String) (serial : String) (version : String)
  | data (args : List String)
  | inputEvent (name : String) (value : String)
  | unknown (id : Nat) (args : List String)
deriving DecidableEq

/-- Body of the `process_inputs` loop (`mapping.rs` lines 70-98) for one
input rule: the actions this rule contributes for an input event with the
given label and value. -/
def inputActions (name : String) (value : String) (config : InputConfig) : List SimAction :=
  if !config.active || config.description ≠ name then []
  else
    let buttonActs :=
      match config.settings.button with
      | some button =>
        match (if value = "1" then button.on_press else button.on_release) with
        | some act => [createSimAction act]
        | Option.none => []
      | Option.none => []
    let encoderActs :=
      match config.settings.encoder with
      | some encoder =>
        match (if value = "0" then encoder.on_left else encoder.on_right) with
        | some act => [createSimAction act]
        | Option.none => []
      | Option.none => []
    buttonActs ++ encoderActs

/-- Mirror of `MappingEngine::process_inputs` (`mapping.rs` lines 65-102):
only `InputEvent` responses produce actions. -/
def processInputs (proj : MobiFlightProject) (resp : Response) : List SimAction :=
  match resp with
  | Response.inputEvent name value => proj.inputs.config.flatMap (inputActions name value)
  | _ => []

/-- Mirror of `protocol.rs` `Command`. -/
inductive Command where
  | init
  | getInfo
  | getName
  | setName (name : String)
  | getVersion
  | resetBoard
  | setPin (pin : Nat) (value : Nat)
  | set7Segment (module : Nat) (index : Nat) (value : String)
  | setLCD (display_id : Nat) (line : Nat) (text : String)
  | setStepper (motor_id : Nat) (steps : Int)
  | setRGB (led_id : Nat) (r : Nat) (g : Nat) (b : Nat)
deriving DecidableEq

/-- Mirror of `Command::id` (`protocol.rs` lines 17-31). -/
def Command.idNum : Command → Nat
  | Command.init => 1
  | Command.resetBoard => 5
  | Command.getInfo => 7
  | Command.getName => 8
  | Command.setName _ => 9
  | Command.getVersion => 10
  | Command.setPin _ _ => 3
  | Command.set7Segment _ _ _ => 15
  | Command.setLCD _ _ _ => 16
  | Command.setStepper _ _ => 17
  | Command.setRGB _ _ _ _ => 18

/-- Mirror of `Command::serialize` (`protocol.rs` lines 33-52). -/
def Command.serialize (c : Command) : String :=
  let i := toString c.idNum
  match c with
  | Command.setName name => i ++ "," ++ name ++ ";"
  | Command.setPin pin val => i ++ "," ++ toString pin ++ "," ++ toString val ++ ";"
  | Command.set7Segment m idx val =>
    i ++ "," ++ toString m ++ "," ++ toString idx ++ "," ++ val ++ ";"
  | Command.setLCD d l t =>
    i ++ "," ++ toString d ++ "," ++ toString l ++ "," ++ t ++ ";"
  | Command.setStepper m s => i ++ "," ++ toString m ++ "," ++ toString s ++ ";"
  | Command.setRGB a r g b =>
    i ++ "," ++ toString a ++ "," ++ toString r ++ "," ++ toString g ++ "," ++
      toString b ++ ";"
  | _ => i ++ ";"

/-- The argument strings of a command in serialization order. -/
def Command.argStrings : Command → List String
  | Command.setName name => [name]
  | Command.setPin pin val => [toString pin, toString val]
  | Command.set7Segment m idx val => [toString m, toString idx, val]
  | Command.setLCD d l t => [toString d, toString l, t]
  | Command.setStepper m s => [toString m, toString s]
  | Command.setRGB a r g b => [toString a, toString r, toString g, toString b]
  | _ => []

/-- Rust `trim_end_matches(';')`: drop every trailing semicolon. -/
def trimSemisEnd (s : String) : String :=
  String.mk ((s.data.reverse.dropWhile (fun c => c = ';')).reverse)

/-- Rust `str::trim` (whitespace at both ends). -/
def trimWs (s : String) : String :=
  String.mk (((s.data.dropWhile Char.isWhitespace).reverse.dropWhile
    Char.isWhitespace).reverse)

/-- Rust `str::split(sep)`: split at every separator, keeping empty pieces
(`"a,"` gives `["a", ""]`, `""` gives `[""]`). -/
def splitChar (sep : Char) : List Char → List (List Char)
  | [] => [[]]
  | c :: rest =>
    let r := splitChar sep rest
    if c = sep then [] :: r
    else
      match r with
      | h :: t => (c :: h) :: t
      | [] => [[c]]

/-- Mirror of `Response::parse` (`protocol.rs` lines 72-95).  The Rust match
guards `7 if args.len() >= 4` and `11 if args.len() >= 2` fall through to the
`Unknown` arm when the guard fails. -/
def Response.parse (input : String) : Option Response :=
  let t := trimWs (trimSemisEnd input)
  let parts := (splitChar ',' t.data).map String.mk
  match parts with
  | [] => Option.none
  | p0 :: args =>
    match parseU8 p0 with
    | Option.none => Option.none
    | some id =>
      if id = 7 then
        match args with
        | a :: b :: c :: d :: _ => some (Response.info a b c d)
        | _ => some (Response.unknown id args)
      else if id = 11 then
        match args with
        | a :: b :: _ => some (Response.inputEvent a b)
        | _ => some (Response.unknown id args)
      else some (Response.unknown id args)

/-- The string fields carried by a parsed response, in declaration order. -/
def Response.fields : Response → List String
  | Response.info n bt s v => [n, bt, s, v]
  | Response.data args => args
  | Response.inputEvent n v => [n, v]
  | Response.unknown _ args => args

/-- Model of `HashMap::insert`: replace the entry for an existing key, append
a fresh key.  Keeps keys distinct. -/
def insertKV {α : Type} (k : String) (v : α) (l : List (String × α)) : List (String × α) :=
  if l.any (fun p => p.1 = k) then l.map (fun p => if p.1 = k then (k, v) else p)
  else l ++ [(k, v)]

/-- State of `xplane.rs` `XPlaneClient`: `connected` models `socket.is_some()`;
the shared cache and the subscription `HashMap` are association lists. -/
structure XPlaneState where
  connected : Bool
  cache : List (String × FVal)
  subscriptions : List (String × Int)
deriving DecidableEq

/-- Subscription bookkeeping of `XPlaneClient::subscribe` (`xplane.rs` lines
24-27): the next index is `subscriptions.len() + 1` and the entry is inserted;
returns the assigned index, or `none` when not connected. -/
def xplaneSubscribeStep (st : XPlaneState) (varName : String) : XPlaneState × Option Int :=
  if st.connected then
    let index : Int := (st.subscriptions.length : Int) + 1
    ({ st with subscriptions := insertKV varName index st.subscriptions }, some index)
  else (st, Option.none)

/-- A sequence of `subscribe` calls on a connected client, starting from a
given subscription table: returns the final table and the list of indices
assigned, in call order. -/
def subRun (tbl : List (String × Int)) : List String → List (String × Int) × List Int
  | [] => (tbl, [])
  | v :: rest =>
    let index : Int := (tbl.length : Int) + 1
    let next := subRun (insertKV v index tbl) rest
    (next.1, index :: next.2)

/-- The integers `s, s+1, ..., s+n-1` as `Int` values. -/
def intRange (s n : Nat) : List Int :=
  List.map (fun k => Int.ofNat k) (List.range' s n)

/-- Little-endian bytes of an `i32` (Rust `to_le_bytes`). -/
def i32leBytes (n : Int) : List Nat :=
  let m := (n % (2 ^ 32 : Int)).toNat
  [m % 256, m / 256 % 256, m / 2 ^ 16 % 256, m / 2 ^ 24 % 256]

/-- Datagram built by `XPlaneClient::subscribe` (`xplane.rs` lines 29-39):
a 413-byte zeroed buffer receives the tag `RREF`, a null byte, the frequency
and index as little-endian `i32`, and the variable path truncated to 400
bytes; the slice `buf[..13+len+1]` is sent.  `none` models the out-of-bounds
slice panic when `13+len+1 > 413`. -/
def subscribeFrame (frequency : Int) (index : Int) (path : List Nat) : Option (List Nat) :=
  let len := min path.length 400
  let buf := [82, 82, 69, 70] ++ [0] ++ i32leBytes frequency ++ i32leBytes index ++
    path.take len ++ List.replicate (400 - len) 0
  if 13 + len + 1 ≤ 413 then some (buf.take (13 + len + 1)) else Option.none

/-- Datagram built by `XPlaneClient::write_variable` (`xplane.rs` lines
70-81): a 509-byte zeroed buffer receives the tag `DREF`, a null byte, the
four little-endian bytes of the value as `f32` (abstracted here as the list
`valueBytes`), and the path truncated to 500 bytes; the slice `buf[..9+len+1]`
is sent.  `none` models the out-of-bounds slice panic when `9+len+1 > 509`. -/
def writeFrame (valueBytes : List Nat) (path : List Nat) : Option (List Nat) :=
  let len := min path.length 500
  let buf := [68, 82, 69, 70] ++ [0] ++ valueBytes ++ path.take len ++
    List.replicate (500 - len) 0
  if 9 + len + 1 ≤ 509 then some (buf.take (9 + len + 1)) else Option.none

/-- Datagram built by `XPlaneClient::execute_command` (`xplane.rs` lines
90-98): a 505-byte zeroed buffer receives the tag `CMND`, a null byte, and the
command path truncated to 500 bytes; the slice `buf[..5+len+1]` is sent.
`none` models the out-of-bounds slice panic when `5+len+1 > 505`. -/
def cmdFrame (path : List Nat) : Option (List Nat) :=
  let len := min path.length 500
  let buf := [67, 77, 78, 68] ++ [0] ++ path.take len ++ List.replicate (500 - len) 0
  if 5 + len + 1 ≤ 505 then some (buf.take (5 + len + 1)) else Option.none

/-- Signed value of four little-endian bytes as an `i32`. -/
def i32fromLe (bytes : List Nat) : Int :=
  match bytes with
  | [b0, b1, b2, b3] =>
    let m : Nat := b0 + 256 * b1 + 2 ^ 16 * b2 + 2 ^ 24 * b3
    if m < 2 ^ 31 then (m : Int) else (m : Int) - 2 ^ 32
  | _ => 0

/-- Exact value of four little-endian bytes decoded as an IEEE `f32`
(`f32::from_le_bytes`); every finite `f32` is an exact rational, so the
decoding is exact.  The subsequent Rust `as f64` conversion is value-exact. -/
def f32fromLe (bytes : List Nat) : FVal :=
  match bytes with
  | [b0, b1, b2, b3] =>
    let bits := b0 + 256 * b1 + 2 ^ 16 * b2 + 2 ^ 24 * b3
    let sign := bits / 2 ^ 31
    let e := bits / 2 ^ 23 % 256
    let m : Nat := bits % 2 ^ 23
    if e = 255 then
      if m = 0 then (if sign = 1 then FVal.ninf else FVal.inf) else FVal.nan
    else
      let mag : ℚ :=
        if e = 0 then (m : ℚ) / 2 ^ 149
        else (((2 ^ 23 : ℚ) + (m : ℚ)) * (2 : ℚ) ^ e) / 2 ^ 150
      if sign = 1 then FVal.num (-mag) else FVal.num mag
  | _ => FVal.nan

/-- Split a byte list into complete 8-byte records, dropping any incomplete
tail (the `while pos + 8 <= amt` loop). -/
def records8 : List Nat → List (List Nat)
  | b0 :: b1 :: b2 :: b3 :: b4 :: b5 :: b6 :: b7 :: rest =>
    [b0, b1, b2, b3, b4, b5, b6, b7] :: records8 rest
  | _ => []

/-- One inbound datagram handled by `XPlaneClient::poll` (`xplane.rs` lines
109-135): resolvable records update the cache; records whose index has no
subscription entry are dropped.  The Rust reverse lookup iterates a `HashMap`
in unspecified order; the model takes the first matching list entry. -/
def processDatagram (st : XPlaneState) (dg : List Nat) : XPlaneState :=
  if 5 ≤ dg.length && dg.take 4 = [82, 82, 69, 70] then
    (records8 (dg.drop 5)).foldl
      (fun s r =>
        let index := i32fromLe (r.take 4)
        let val := f32fromLe (r.drop 4)
        match s.subscriptions.find? (fun p => p.2 = index) with
        | some p => { s with cache := insertKV p.1 val s.cache }
        | Option.none => s)
      st
  else st

/-- Mirror of `XPlaneClient::poll` (`xplane.rs` lines 105-139): drain all
currently available datagrams; do nothing when not connected. -/
def xplanePoll (st : XPlaneState) (inbound : List (List Nat)) : XPlaneState :=
  if st.connected then inbound.foldl processDatagram st else st

/-- Mirror of `XPlaneClient::disconnect` (`xplane.rs` lines 55-58): only the
socket is dropped (`self.socket = None`). -/
def xplaneDisconnect (st : XPlaneState) : XPlaneState :=
  { st with connected := false }

/-- Mirror of `XPlaneClient::get_all_variables` (`xplane.rs` lines 141-144). -/
def xplaneSnapshot (st : XPlaneState) : List (String × FVal) :=
  st.cache

/-- State of `msfs.rs` `MSFSClient` (the HTTP bridge connector). -/
structure MSFSState where
  connected : Bool
  vars : List (String × FVal)
deriving DecidableEq

/-- Outcome of the one GET issued by `MSFSClient::poll`: the send itself can
fail (timeout or transport error), or a status arrives, successful or not,
with `body` the JSON-decoded variable map when it decodes. -/
inductive HttpPoll where
  | sendErr
  | status (success : Bool) (body : Option (List (String × FVal)))
deriving DecidableEq

/-- Mirror of `MSFSClient::poll` (`msfs.rs` lines 112-130): the snapshot is
replaced wholesale only on a successful, decodable response; every path
returns `Ok(())`, modelled by the `Bool` being `true`. -/
def msfsPoll (st : MSFSState) (r : HttpPoll) : MSFSState × Bool :=
  if !st.connected then (st, true)
  else
    match r with
    | HttpPoll.status true (some vs) => ({ st with vars := vs }, true)
    | HttpPoll.status true Option.none => (st, true)
    | HttpPoll.status false _ => (st, true)
    | HttpPoll.sendErr => (st, true)

/-- Mirror of `MSFSClient::disconnect` (`msfs.rs` lines 58-63). -/
def msfsDisconnect (_st : MSFSState) : MSFSState :=
  { connected := false, vars := [] }

/-- Mirror of `MSFSClient::get_all_variables` (`msfs.rs` lines 132-134). -/
def msfsSnapshot (st : MSFSState) : List (String × FVal) :=
  st.vars

/-- State of `dummy.rs` `DummyClient` (the synthetic connector). -/
structure DummyState where
  connected : Bool
  counter : ℚ
deriving DecidableEq

/-- Mirror of `DummyClient::poll` (`dummy.rs` lines 44-49): when connected the
counter advances by 0.1 each call.  The rational 1/10 stands for the binary64
literal; the exact value is immaterial beyond being nonzero. -/
def dummyPoll (st : DummyState) : DummyState :=
  if st.connected then { st with counter := st.counter + 1 / 10 } else st

/-- Truncation toward zero on rationals (Rust float-to-int behaviour used to
define `%`). -/
def ratTrunc (q : ℚ) : ℚ :=
  if 0 ≤ q then (⌊q⌋ : ℚ) else (⌈q⌉ : ℚ)

/-- Rust `%` on floats: remainder with the sign of the dividend. -/
def rustRem (a b : ℚ) : ℚ := a - b * ratTrunc (a / b)

/-- Mirror of `DummyClient::get_all_variables` (`dummy.rs` lines 51-68):
synthesizes three variables from the counter when connected.  `sinF` stands
for the platform `f64::sin`; no theorem depends on its values. -/
def dummySnapshot (sinF : ℚ → ℚ) (st : DummyState) : List (String × FVal) :=
  if st.connected then
    [("sim/flightmodel/position/altitude", FVal.num (1000 + st.counter)),
     ("sim/cockpit2/controls/gear_handle_down",
       FVal.num (if 10 < rustRem st.counter 20 then 1 else 0)),
     ("sim/flightmodel/engine/ENGN_RPM[0]", FVal.num (2500 + sinF st.counter * 100))]
  else []

/-! Theorems.  Each claim of the specification gets one main theorem, plus a
counterexample where the claim as stated fails on the code, and a witness
instantiating every hypothesis at a concrete input. -/

/-- Claim C1, counterexample: with comparison `{value:"0", operand:">",
ifValue:"x", elseValue:"0"}` and input 1, the condition holds and the
unparsable if-value makes `apply_comparison` return 1, while the claim (all
three literals default to 0 on parse failure) predicts 0. -/
theorem c1_counterexample :
    applyComparison (FVal.num 1) ⟨true, "0", ">", "x", "0"⟩ = FVal.num 1 ∧
    applyComparisonClaimC1 (FVal.num 1) ⟨true, "0", ">", "x", "0"⟩ = FVal.num 0 ∧
    FVal.num 1 ≠ FVal.num 0 :=
  ⟨by decide, by decide, by decide⟩

/-- Claim C1 (amended): when a comparison is enabled the effective value is
obtained by evaluating `operand(value, threshold)` and substituting the
if-value or else-value; an unparsable threshold is treated as 0 and an
unparsable else-value as 0, but an unparsable if-value is treated as 1. -/
theorem c1_comparison_defaults (val : FVal) (comp : Comparison) :
    (conditionMet val comp.operand ((parseF64 comp.value).getD (FVal.num 0)) = true →
      parseF64 comp.if_value = Option.none → applyComparison val comp = FVal.num 1) ∧
    (∀ v, conditionMet val comp.operand ((parseF64 comp.value).getD (FVal.num 0)) = true →
      parseF64 comp.if_value = some v → applyComparison val comp = v) ∧
    (conditionMet val comp.operand ((parseF64 comp.value).getD (FVal.num 0)) = false →
      parseF64 comp.else_value = Option.none → applyComparison val comp = FVal.num 0) ∧
    (∀ v, conditionMet val comp.operand ((parseF64 comp.value).getD (FVal.num 0)) = false →
      parseF64 comp.else_value = some v → applyComparison val comp = v) := by
  refine ⟨fun hc hp => ?_, fun v hc hp => ?_, fun hc hp => ?_, fun v hc hp => ?_⟩ <;>
    simp [applyComparison, hc, hp]

/-- Claim C1, witness: the amended theorem applied at input 1 with the
comparison `{value:"0", operand:">", ifValue:"x", elseValue:"0"}`. -/
theorem c1_witness :
    applyComparison (FVal.num 1) ⟨true, "0", ">", "x", "0"⟩ = FVal.num 1 :=
  (c1_comparison_defaults (FVal.num 1) ⟨true, "0", ">", "x", "0"⟩).1 (by decide) (by decide)

/-- Claim C5, counterexample: at distance exactly epsilon from the threshold,
`!=` does not select the if-branch even though `==` does not select it
either, so inequality is not the strict complement of epsilon equality. -/
theorem c5_counterexample :
    ¬ (conditionMet (FVal.num f64Epsilon) "!=" (FVal.num 0) = true ↔
       ¬ conditionMet (FVal.num f64Epsilon) "==" (FVal.num 0) = true) := by
  have habs : |f64Epsilon - 0| = f64Epsilon := by
    rw [sub_zero]
    exact abs_of_nonneg (by norm_num [f64Epsilon])
  have h1 : conditionMet (FVal.num f64Epsilon) "!=" (FVal.num 0) = false := by
    show decide (f64Epsilon < |f64Epsilon - 0|) = false
    rw [habs]
    exact decide_eq_false (lt_irrefl _)
  have h2 : conditionMet (FVal.num f64Epsilon) "==" (FVal.num 0) = false := by
    show decide (|f64Epsilon - 0| < f64Epsilon) = false
    rw [habs]
    exact decide_eq_false (lt_irrefl _)
  simp [h1, h2]

/-- Claim C5 (amended): on finite values, `>`, `<`, `>=`, `<=` match their
mathematical definitions exactly; `==`/`=` select the if-branch exactly when
the distance to the threshold is strictly below epsilon, and `!=` exactly when
it is strictly above epsilon — so `!=` agrees with the complement of `==`
except at distance exactly epsilon. -/
theorem c5_operator_semantics (v t : ℚ) :
    (conditionMet (FVal.num v) ">" (FVal.num t) = true ↔ t < v) ∧
    (conditionMet (FVal.num v) "<" (FVal.num t) = true ↔ v < t) ∧
    (conditionMet (FVal.num v) ">=" (FVal.num t) = true ↔ t ≤ v) ∧
    (conditionMet (FVal.num v) "<=" (FVal.num t) = true ↔ v ≤ t) ∧
    (conditionMet (FVal.num v) "==" (FVal.num t) = true ↔ |v - t| < f64Epsilon) ∧
    (conditionMet (FVal.num v) "=" (FVal.num t) = true ↔ |v - t| < f64Epsilon) ∧
    (conditionMet (FVal.num v) "!=" (FVal.num t) = true ↔ f64Epsilon < |v - t|) := by
  refine ⟨?_, ?_, ?_, ?_, ?_, ?_, ?_⟩
  · show FVal.blt (FVal.num t) (FVal.num v) = true ↔ t < v
    simp [FVal.blt]
  · show FVal.blt (FVal.num v) (FVal.num t) = true ↔ v < t
    simp [FVal.blt]
  · show FVal.ble (FVal.num t) (FVal.num v) = true ↔ t ≤ v
    simp [FVal.ble]
  · show FVal.ble (FVal.num v) (FVal.num t) = true ↔ v ≤ t
    simp [FVal.ble]
  · show FVal.blt (FVal.num |v - t|) (FVal.num f64Epsilon) = true ↔ |v - t| < f64Epsilon
    simp [FVal.blt]
  · show FVal.blt (FVal.num |v - t|) (FVal.num f64Epsilon) = true ↔ |v - t| < f64Epsilon
    simp [FVal.blt]
  · show FVal.blt (FVal.num f64Epsilon) (FVal.num |v - t|) = true ↔ f64Epsilon < |v - t|
    simp [FVal.blt]

/-- Claim C4, counterexample: after `disconnect`, a subscription entry made
during the session is still present — the table is not discarded. -/
theorem c4_counterexample :
    (xplaneDisconnect ⟨true, [], [("a", 1)]⟩).subscriptions = [("a", 1)] ∧
    ([("a", (1 : Int))] : List (String × Int)) ≠ [] :=
  ⟨rfl, by decide⟩

/-- Claim C4 (amended): `disconnect` only drops the socket; the subscription
table and the cached snapshot are both retained, so a subsequent session
starts with the previous name-to-index entries still present. -/
theorem c4_disconnect_keeps_table (st : XPlaneState) :
    (xplaneDisconnect st).subscriptions = st.subscriptions ∧
    (xplaneDisconnect st).cache = st.cache ∧
    (xplaneDisconnect st).connected = false :=
  ⟨rfl, rfl, rfl⟩

/-- Claim C7: an HTTP-bridge poll whose GET fails or returns a non-success
status leaves the cached snapshot unchanged, keeps the connected flag true,
and returns ok. -/
theorem c7_poll_failure_keeps_snapshot (st : MSFSState) (r : HttpPoll)
    (hc : st.connected = true)
    (hf : r = HttpPoll.sendErr ∨ ∃ b, r = HttpPoll.status false b) :
    msfsPoll st r = (st, true) ∧
    msfsSnapshot (msfsPoll st r).1 = msfsSnapshot st ∧
    (msfsPoll st r).1.connected = true := by
  have h : msfsPoll st r = (st, true) := by
    rcases hf with h | ⟨b, h⟩ <;> subst h <;> simp [msfsPoll, hc]
  exact ⟨h, by rw [h], by rw [h]; exact hc⟩

/-- Claim C7, witness: a failed GET on a connected client with one cached
variable. -/
theorem c7_witness :
    msfsPoll ⟨true, [("a", FVal.num 1)]⟩ HttpPoll.sendErr =
      (⟨true, [("a", FVal.num 1)]⟩, true) :=
  (c7_poll_failure_keeps_snapshot ⟨true, [("a", FVal.num 1)]⟩ HttpPoll.sendErr rfl
    (Or.inl rfl)).1

/-- An output rule with `active = false` contributes nothing. -/
theorem outputActions_inactive (data : Snapshot) (c : OutputConfig)
    (h : c.active = false) : outputActions data c = [] := by
  simp [outputActions, h]

/-- An input rule with `active = false` contributes nothing. -/
theorem inputActions_inactive (name value : String) (c : InputConfig)
    (h : c.active = false) : inputActions name value c = [] := by
  simp [inputActions, h]

/-- Dropping the elements on which `f` is empty does not change a flat map. -/
theorem flatMap_filter_of_nil {α β : Type} (p : α → Bool) (f : α → List β)
    (h : ∀ a, p a = false → f a = []) :
    ∀ l : List α, (l.filter p).flatMap f = l.flatMap f := by
  intro l
  induction l with
  | nil => rfl
  | cons a l ih =>
    cases hpa : p a with
    | false => simp [List.filter_cons, hpa, ih, h a hpa]
    | true => simp [List.filter_cons, hpa, ih]

/-- Claim C9: a rule whose active flag is false produces no hardware action
from `process_outputs` and no simulator action from `process_inputs`; both
functions are unchanged by deleting the inactive rules. -/
theorem c9_disabled_rules_inert (data : Snapshot) (name value : String)
    (cfgO : OutputConfig) (cfgI : InputConfig) (proj : MobiFlightProject)
    (resp : Response) :
    (cfgO.active = false → outputActions data cfgO = []) ∧
    (cfgI.active = false → inputActions name value cfgI = []) ∧
    processOutputs proj data =
      processOutputs ⟨⟨proj.outputs.config.filter (fun c => c.active)⟩, proj.inputs⟩ data ∧
    processInputs proj resp =
      processInputs ⟨proj.outputs, ⟨proj.inputs.config.filter (fun c => c.active)⟩⟩ resp := by
  refine ⟨outputActions_inactive data cfgO, inputActions_inactive name value cfgI, ?_, ?_⟩
  · exact (flatMap_filter_of_nil _ _ (outputActions_inactive data)
      proj.outputs.config).symm
  · cases resp with
    | inputEvent n v =>
      exact (flatMap_filter_of_nil _ _ (inputActions_inactive n v)
        proj.inputs.config).symm
    | info a b c d => rfl
    | data args => rfl
    | unknown i args => rfl

/-- Claim C9, witness: a disabled pin rule and a disabled button rule produce
nothing on a nonempty snapshot and a matching event. -/
theorem c9_witness :
    outputActions [("alt", FVal.num 1200)]
      ⟨"g", false, "d", ⟨some ⟨"t", "alt"⟩, Option.none,
        some ⟨"Pin", "SN", "tr", "13"⟩⟩⟩ = [] ∧
    inputActions "GearToggle" "1"
      ⟨"g", false, "GearToggle",
        ⟨some ⟨some ⟨"XplaneAction", some "gear_unsafe", Option.none, Option.none⟩,
          Option.none⟩, Option.none⟩⟩ = [] :=
  ⟨(c9_disabled_rules_inert [("alt", FVal.num 1200)] "GearToggle" "1"
      ⟨"g", false, "d", ⟨some ⟨"t", "alt"⟩, Option.none, some ⟨"Pin", "SN", "tr", "13"⟩⟩⟩
      ⟨"g", false, "GearToggle",
        ⟨some ⟨some ⟨"XplaneAction", some "gear_unsafe", Option.none, Option.none⟩,
          Option.none⟩, Option.none⟩⟩
      ⟨⟨[]⟩, ⟨[]⟩⟩ (Response.data [])).1 rfl,
   (c9_disabled_rules_inert [("alt", FVal.num 1200)] "GearToggle" "1"
      ⟨"g", false, "d", ⟨some ⟨"t", "alt"⟩, Option.none, some ⟨"Pin", "SN", "tr", "13"⟩⟩⟩
      ⟨"g", false, "GearToggle",
        ⟨some ⟨some ⟨"XplaneAction", some "gear_unsafe", Option.none, Option.none⟩,
          Option.none⟩, Option.none⟩⟩
      ⟨⟨[]⟩, ⟨[]⟩⟩ (Response.data [])).2.1 rfl⟩

/-- Claim C6, counterexample: the synthetic connector has no inbound data at
all, yet a poll in the connected state advances the counter and changes the
snapshot (the altitude entry moves from 1000 to 1000.1). -/
theorem c6_counterexample :
    List.lookup "sim/flightmodel/position/altitude"
        (dummySnapshot (fun _ => 0) (dummyPoll ⟨true, 0⟩)) =
      some (FVal.num (1000 + 1 / 10)) ∧
    List.lookup "sim/flightmodel/position/altitude"
        (dummySnapshot (fun _ => 0) ⟨true, 0⟩) = some (FVal.num 1000) ∧
    dummySnapshot (fun _ => 0) (dummyPoll ⟨true, 0⟩) ≠
      dummySnapshot (fun _ => 0) ⟨true, 0⟩ := by
  have h1 : List.lookup "sim/flightmodel/position/altitude"
      (dummySnapshot (fun _ => 0) (dummyPoll ⟨true, 0⟩)) =
      some (FVal.num (1000 + 1 / 10)) := by
    norm_num [dummySnapshot, dummyPoll, List.lookup]
  have h2 : List.lookup "sim/flightmodel/position/altitude"
      (dummySnapshot (fun _ => 0) ⟨true, 0⟩) = some (FVal.num 1000) := by
    norm_num [dummySnapshot, List.lookup]
  refine ⟨h1, h2, fun heq => ?_⟩
  have h3 := congrArg (List.lookup "sim/flightmodel/position/altitude") heq
  rw [h1, h2] at h3
  have h4 : (1000 + 1 / 10 : ℚ) = 1000 := FVal.num.inj (Option.some.inj h3)
  norm_num at h4

/-- Claim C6 (amended): polling with no new inbound data leaves the snapshot
unchanged for the UDP connector (no datagrams available) and the HTTP
connector (failed send, non-success status, undecodable body, or a body equal
to the cached one), and for the synthetic connector when disconnected; when
the synthetic connector is connected, every poll advances its counter and
changes the snapshot by design. -/
theorem c6_poll_idempotence (xst : XPlaneState) (mst : MSFSState) (r : HttpPoll)
    (dst : DummyState) (sinF : ℚ → ℚ) :
    xplanePoll xst [] = xst ∧
    ((r = HttpPoll.sendErr ∨ (∃ b, r = HttpPoll.status false b) ∨
        r = HttpPoll.status true Option.none ∨ r = HttpPoll.status true (some mst.vars)) →
      msfsSnapshot (msfsPoll mst r).1 = msfsSnapshot mst) ∧
    (dst.connected = false → dummyPoll dst = dst) ∧
    (dst.connected = true →
      List.lookup "sim/flightmodel/position/altitude" (dummySnapshot sinF (dummyPoll dst)) ≠
        List.lookup "sim/flightmodel/position/altitude" (dummySnapshot sinF dst)) := by
  refine ⟨?_, ?_, ?_, ?_⟩
  · cases h : xst.connected <;> simp [xplanePoll, h]
  · rintro (h | ⟨b, h⟩ | h | h) <;> subst h <;>
      cases hc : mst.connected <;> simp [msfsPoll, msfsSnapshot, hc]
  · intro h
    simp [dummyPoll, h]
  · intro h
    have hne : (1000 : ℚ) + (dst.counter + 1 / 10) ≠ 1000 + dst.counter := by
      intro hq
      linarith
    simp [dummySnapshot, dummyPoll, h, List.lookup, hne]

/-- Claim C6, witness: a disconnected synthetic connector is unchanged by a
poll, and a UDP poll with no datagrams is the identity on a sample state. -/
theorem c6_witness :
    xplanePoll ⟨true, [("a", FVal.num 1)], [("a", 1)]⟩ [] =
      ⟨true, [("a", FVal.num 1)], [("a", 1)]⟩ ∧
    dummyPoll ⟨false, 0⟩ = ⟨false, 0⟩ :=
  ⟨(c6_poll_idempotence ⟨true, [("a", FVal.num 1)], [("a", 1)]⟩ ⟨true, []⟩
      HttpPoll.sendErr ⟨false, 0⟩ (fun _ => 0)).1,
   (c6_poll_idempotence ⟨true, [("a", FVal.num 1)], [("a", 1)]⟩ ⟨true, []⟩
      HttpPoll.sendErr ⟨false, 0⟩ (fun _ => 0)).2.2.1 rfl⟩

/-- Inserting a key absent from the table appends the new entry. -/
theorem insertKV_fresh {α : Type} (k : String) (v : α) (l : List (String × α))
    (h : ∀ p ∈ l, p.1 ≠ k) : insertKV k v l = l ++ [(k, v)] := by
  have hcond : (l.any fun p => decide (p.1 = k)) = false := by
    rw [List.any_eq_false]
    intro p hp
    simpa using h p hp
  simp [insertKV, hcond]

/-- One-step unfolding of `intRange`. -/
theorem intRange_succ (s n : Nat) : intRange s (n + 1) = (s : Int) :: intRange (s + 1) n := by
  simp [intRange, List.range']

/-- Length of `intRange`. -/
theorem intRange_length (s n : Nat) : (intRange s n).length = n := by
  unfold intRange
  rw [List.length_map, List.length_range']

/-- A run of subscriptions over names that are pairwise distinct and absent
from the table appends them with consecutive indices. -/
theorem subRun_fresh (names : List String) :
    ∀ tbl : List (String × Int), names.Nodup →
      (∀ n ∈ names, ∀ p ∈ tbl, p.1 ≠ n) →
      subRun tbl names =
        (tbl ++ names.zip (intRange (tbl.length + 1) names.length),
         intRange (tbl.length + 1) names.length) := by
  induction names with
  | nil =>
    intro tbl _ _
    simp [subRun, intRange, List.range']
  | cons v rest ih =>
    intro tbl hnd hfresh
    have hins : insertKV v ((tbl.length : Int) + 1) tbl =
        tbl ++ [(v, (tbl.length : Int) + 1)] :=
      insertKV_fresh _ _ _ (fun p hp => hfresh v (List.mem_cons_self _ _) p hp)
    have hnd2 : rest.Nodup := (List.nodup_cons.mp hnd).2
    have hfresh2 : ∀ n ∈ rest, ∀ p ∈ tbl ++ [(v, (tbl.length : Int) + 1)], p.1 ≠ n := by
      intro n hn p hp
      rcases List.mem_append.mp hp with hmem | hmem
      · exact hfresh n (List.mem_cons_of_mem _ hn) p hmem
      · have hpv : p = (v, (tbl.length : Int) + 1) := List.mem_singleton.mp hmem
        subst hpv
        show v ≠ n
        intro he
        exact (List.nodup_cons.mp hnd).1 (by rwa [he])
    have hrec := ih (tbl ++ [(v, (tbl.length : Int) + 1)]) hnd2 hfresh2
    have hcast : ((tbl.length + 1 : Nat) : Int) = (tbl.length : Int) + 1 := by
      push_cast
      ring
    simp only [subRun]
    rw [hins, hrec]
    simp [intRange_succ, List.zip_cons_cons, List.append_assoc, hcast]

/-- Claim C2, counterexample: subscribing `a`, then `a` again, then `b`
assigns the indices 1, 2, 2 — not strictly increasing — and leaves the two
distinct names `a` and `b` both mapped to index 2. -/
theorem c2_counterexample :
    subRun [] ["a", "a", "b"] = ([("a", 2), ("b", 2)], [1, 2, 2]) ∧
    ("a" : String) ≠ "b" :=
  ⟨by decide, by decide⟩

/-- Claim C2 (amended): for a sequence of subscribe calls with pairwise
distinct variable names in one session starting from an empty table, the
assigned indices are exactly 1, 2, 3, ... (strictly increasing) and distinct
names receive distinct indices; re-subscribing an already-subscribed name
breaks both properties. -/
theorem c2_subscribe_indices (names : List String) (h : names.Nodup) :
    (subRun [] names).2 = intRange 1 names.length ∧
    List.Pairwise (fun a b => a < b) (subRun [] names).2 ∧
    (subRun [] names).1 = names.zip (intRange 1 names.length) ∧
    ∀ p ∈ (subRun [] names).1, ∀ q ∈ (subRun [] names).1, p.1 ≠ q.1 → p.2 ≠ q.2 := by
  have hr := subRun_fresh names [] h (by intro n _ p hp; exact absurd hp (List.not_mem_nil p))
  have h0 : (([] : List (String × Int)).length + 1) = 1 := rfl
  rw [h0] at hr
  have hfst : (subRun [] names).1 = names.zip (intRange 1 names.length) := by
    rw [hr]
    simp
  have hsnd : (subRun [] names).2 = intRange 1 names.length := by
    rw [hr]
  have hpw : List.Pairwise (fun a b => a < b) (intRange 1 names.length) := by
    unfold intRange
    refine List.Pairwise.map _ (fun a b hab => Int.ofNat_lt.mpr hab)
      (List.pairwise_lt_range' 1 names.length 1 ?_)
    omega
  have hmapsnd : (names.zip (intRange 1 names.length)).map Prod.snd =
      intRange 1 names.length := by
    apply List.map_snd_zip
    rw [intRange_length]
  have hnd_snd : ((subRun [] names).1.map Prod.snd).Nodup := by
    rw [hfst, hmapsnd]
    exact hpw.imp (fun hab => ne_of_lt hab)
  refine ⟨hsnd, by rw [hsnd]; exact hpw, hfst, ?_⟩
  intro p hp q hq hne heq
  exact hne (congrArg Prod.fst (List.inj_on_of_nodup_map hnd_snd hp hq heq))

/-- Claim C2, witness: two distinct names receive the indices 1 and 2. -/
theorem c2_witness : (subRun [] ["a", "b"]).2 = intRange 1 2 :=
  (c2_subscribe_indices ["a", "b"] (by decide)).1

/-- Taking one byte past a prefix of a zero-padded buffer yields the prefix
plus a single null byte. -/
theorem frameTake (A : List Nat) (m : Nat) (hm : 1 ≤ m) :
    (A ++ List.replicate m 0).take (A.length + 1) = A ++ [0] := by
  rw [List.take_append_eq_append_take, List.take_of_length_le (Nat.le_succ _),
    Nat.add_sub_cancel_left]
  congr 1
  cases m with
  | zero => omega
  | succ k => rfl

/-- An `i32` always serializes to four bytes. -/
theorem i32leBytes_length (n : Int) : (i32leBytes n).length = 4 := rfl

/-- Claim C3, counterexample: the datagrams are not fixed-size.  For the
one-byte path `"a"`, `write_variable` sends 11 bytes (not 509),
`execute_command` sends 7 (not 505), and `subscribe` sends 15 (not 413). -/
theorem c3_counterexample :
    (writeFrame [0, 0, 0, 0] [97]).map List.length = some 11 ∧ (11 : Nat) ≠ 509 ∧
    (cmdFrame [97]).map List.length = some 7 ∧ (7 : Nat) ≠ 505 ∧
    (subscribeFrame 10 1 [97]).map List.length = some 15 ∧ (15 : Nat) ≠ 413 := by
  refine ⟨by decide, by decide, by decide, by decide, by decide, by decide⟩

/-- Claim C3 (amended): the frames carry the documented layout — tag, null
byte, fixed-width fields, truncated path, null terminator — but their length
is variable: `10 + len` for write, `6 + len` for command, `14 + len` for
subscribe, where `len` is the truncated path length.  The sizes 509, 505 and
413 are the zeroed buffer capacities; a path long enough to need the full
truncation width makes the sent slice exceed the buffer (an out-of-bounds
panic, modelled as `none`). -/
theorem c3_frame_layout (vb wpath cpath spath long : List Nat) (freq idx : Int)
    (hvb : vb.length = 4) :
    (wpath.length ≤ 499 →
      writeFrame vb wpath = some ([68, 82, 69, 70] ++ [0] ++ vb ++ wpath ++ [0]) ∧
      ([68, 82, 69, 70] ++ [0] ++ vb ++ wpath ++ [0]).length = 10 + wpath.length) ∧
    (cpath.length ≤ 499 →
      cmdFrame cpath = some ([67, 77, 78, 68] ++ [0] ++ cpath ++ [0]) ∧
      ([67, 77, 78, 68] ++ [0] ++ cpath ++ [0]).length = 6 + cpath.length) ∧
    (spath.length ≤ 399 →
      subscribeFrame freq idx spath =
        some ([82, 82, 69, 70] ++ [0] ++ i32leBytes freq ++ i32leBytes idx ++ spath ++ [0]) ∧
      ([82, 82, 69, 70] ++ [0] ++ i32leBytes freq ++ i32leBytes idx ++ spath ++ [0]).length
        = 14 + spath.length) ∧
    (500 ≤ long.length → writeFrame vb long = Option.none) := by
  refine ⟨fun hw => ⟨?_, ?_⟩, fun hc => ⟨?_, ?_⟩, fun hs => ⟨?_, ?_⟩, fun hl => ?_⟩
  · have hmin : min wpath.length 500 = wpath.length := Nat.min_eq_left (by omega)
    simp only [writeFrame]
    rw [hmin, List.take_length, if_pos (show 9 + wpath.length + 1 ≤ 509 by omega)]
    congr 1
    have hAlen : ([68, 82, 69, 70] ++ [0] ++ vb ++ wpath).length = 9 + wpath.length := by
      simp [hvb]
      omega
    rw [← hAlen]
    exact frameTake _ _ (by omega)
  · simp only [List.length_append, List.length_cons, List.length_nil, hvb]
    omega
  · have hmin : min cpath.length 500 = cpath.length := Nat.min_eq_left (by omega)
    simp only [cmdFrame]
    rw [hmin, List.take_length, if_pos (show 5 + cpath.length + 1 ≤ 505 by omega)]
    congr 1
    have hAlen : ([67, 77, 78, 68] ++ [0] ++ cpath).length = 5 + cpath.length := by
      simp
      omega
    rw [← hAlen]
    exact frameTake _ _ (by omega)
  · simp only [List.length_append, List.length_cons, List.length_nil]
    omega
  · have hmin : min spath.length 400 = spath.length := Nat.min_eq_left (by omega)
    simp only [subscribeFrame]
    rw [hmin, List.take_length, if_pos (show 13 + spath.length + 1 ≤ 413 by omega)]
    congr 1
    have hAlen : ([82, 82, 69, 70] ++ [0] ++ i32leBytes freq ++ i32leBytes idx ++
        spath).length = 13 + spath.length := by
      simp [i32leBytes_length]
      omega
    rw [← hAlen]
    exact frameTake _ _ (by omega)
  · simp only [List.length_append, List.length_cons, List.length_nil, i32leBytes_length]
    omega
  · have hmin : min long.length 500 = 500 := Nat.min_eq_right (by omega)
    simp only [writeFrame]
    rw [hmin, if_neg (by omega)]

/-- Claim C3, witness: the write frame for a one-byte path, with its layout
made explicit by the amended theorem. -/
theorem c3_witness :
    writeFrame [1, 2, 3, 4] [97] =
      some ([68, 82, 69, 70] ++ [0] ++ [1, 2, 3, 4] ++ [97] ++ [0]) :=
  ((c3_frame_layout [1, 2, 3, 4] [97] [99] [100] [] 5 1 rfl).1 (by decide)).1

/-- Claim C8: for every command kind whose numeric id is also a typed
response id (7 or 11 — only `GetInfo`, id 7, qualifies), parsing the
serialized line yields a response whose string fields equal the command's
argument strings. -/
theorem c8_roundtrip (c : Command) (h : c.idNum = 7 ∨ c.idNum = 11) :
    ∃ r : Response, Response.parse (Command.serialize c) = some r ∧
      Response.fields r = Command.argStrings c := by
  cases c
  case getInfo => exact ⟨Response.unknown 7 [], by decide, by decide⟩
  all_goals simp [Command.idNum] at h

/-- Claim C8, witness: the round trip at `GetInfo`, the one command kind with
a matching response id. -/
theorem c8_witness :
    ∃ r : Response, Response.parse (Command.serialize Command.getInfo) = some r ∧
      Response.fields r = Command.argStrings Command.getInfo :=
  c8_roundtrip Command.getInfo (Or.inl rfl)

/-- Claim C10: an enabled Pin rule whose source is in the snapshot emits one
`SetPin` whose value is the effective value under the Rust saturating
`f64 as u8` cast — at or above 255 gives 255, at or below 0 gives 0, NaN
gives 0, and values in between are truncated toward zero — and whose pin is
the rule's pin string parsed as `u8`, defaulting to 0 on parse failure. -/
theorem c10_pin_saturating_cast (guid desc sT sN trig serial pinS : String)
    (cmp : Option Comparison) (data : Snapshot) (v : FVal)
    (hlook : snapLookup data sN = some v) :
    outputActions data
        ⟨guid, true, desc, ⟨some ⟨sT, sN⟩, cmp, some ⟨"Pin", serial, trig, pinS⟩⟩⟩ =
      [HardwareAction.setPin serial ((parseU8 pinS).getD 0)
        (f64AsU8 (match cmp with
          | some comp => if comp.active then applyComparison v comp else v
          | Option.none => v))] ∧
    f64AsU8 FVal.nan = 0 ∧
    (∀ q : ℚ, q ≤ 0 → f64AsU8 (FVal.num q) = 0) ∧
    (∀ q : ℚ, 255 ≤ q → f64AsU8 (FVal.num q) = 255) ∧
    (∀ q : ℚ, 0 ≤ q → q < 255 → f64AsU8 (FVal.num q) = (⌊q⌋).toNat) ∧
    (parseU8 pinS = Option.none → (parseU8 pinS).getD 0 = 0) := by
  refine ⟨?_, rfl, ?_, ?_, ?_, ?_⟩
  · cases cmp <;> simp [outputActions, hlook]
  · intro q hq
    simp [f64AsU8, hq]
  · intro q hq
    have h0 : ¬ q ≤ 0 := by linarith
    simp [f64AsU8, h0, hq]
  · intro q hq0 hq255
    by_cases hqe : q ≤ 0
    · have hz : q = 0 := le_antisymm hqe hq0
      subst hz
      simp [f64AsU8]
    · have h255 : ¬ (255 : ℚ) ≤ q := by linarith
      simp [f64AsU8, hqe, h255]
  · intro hnone
    simp [hnone]

/-- Claim C10, witness: the specification scenario — rule on `alt`,
comparison `> 1000` mapping to 1/0 on pin 13, snapshot value 1200 — emits
`SetPin` with pin 13 and value 1. -/
theorem c10_witness :
    outputActions [("alt", FVal.num 1200)]
      ⟨"g", true, "d", ⟨some ⟨"t", "alt"⟩, some ⟨true, "1000", ">", "1", "0"⟩,
        some ⟨"Pin", "SN", "tr", "13"⟩⟩⟩ = [HardwareAction.setPin "SN" 13 1] :=
  Eq.trans
    ((c10_pin_saturating_cast "g" "d" "t" "alt" "tr" "SN" "13"
      (some ⟨true, "1000", ">", "1", "0"⟩) [("alt", FVal.num 1200)] (FVal.num 1200)
      (by decide)).1)
    (by decide)

end OpenFlite
